import Mathlib

/-!
Shallow embedding of the WaterHeaterStation ADC drivers.

The repository contains two I²C ADC driver classes:
* `max1238.py` — class `Max1238` with a low-level transaction helper
  `_xfer` (validation, optional write, optional read, bounded retry on
  `OSError`), byte builders `_build_setup_byte` / `_build_config_byte`,
  and the high-level operations `read_single`, `read_range`,
  `read_multiple`, `setup_adc`.
* `max1239.py` — class `Max1239` with `create_config_binary`,
  `create_setup_binary`, `read_channel`, `setup_adc`.

Modelling conventions:
* Python `int` channel/count/length parameters become `Int` (so negative
  inputs are representable); values that are known non-negative after
  validation are converted with `Int.toNat`.
* Python exceptions become an explicit error type `WHS.Err`:
  `ValueError` raised by the drivers' own range checks is `rangeError`
  (carrying the exact message string from the source), `OSError` from the
  bus is `busFault` (carrying an opaque numeric code so distinct faults
  stay distinguishable), tuple-unpacking `ValueError` is `unpackError`,
  list `IndexError` is `indexError` and dict `KeyError` is `keyError`.
* The bus (`smbus2.SMBus.i2c_rdwr`) is an oracle: given the write
  payload, the requested read length and the attempt index it either
  returns the raw bytes read or fails with an `OSError` code.  Each
  `i2c_rdwr` call counts as one bus access; the `Max1238` operations
  return the pair (result, number of bus accesses performed) so that
  "no bus access on this error path" is a provable statement.
* `_xfer` is always called by this repository with a single `int` write
  byte, which the source normalises to the one-element list; the model
  takes the normalised `Option (List Int)` payload and uses the
  list-branch validation message.
-/

namespace WHS

/-- Error outcomes of the drivers, replacing Python exceptions:
`rangeError` = driver-raised `ValueError` (with the source's message),
`busFault` = `OSError` from the bus (a numeric code keeps distinct faults
distinguishable), `unpackError` = tuple-unpacking `ValueError`,
`indexError` = list `IndexError`, `keyError` = dict `KeyError`. -/
inductive Err where
  | rangeError (msg : String)
  | busFault (code : Nat)
  | unpackError
  | indexError
  | keyError
  deriving DecidableEq, Repr

/-- The I²C bus as `Max1238._xfer` uses it: one atomic `i2c_rdwr` call,
given the (normalised) write payload, the requested read length and the
attempt index, returns the bytes read or fails with an `OSError` code. -/
def Bus : Type := Option (List Int) → Nat → Nat → Except Nat (List Nat)

namespace Max1238

/-- Embeds `class InputMode(Enum)` of max1238.py (SGL/DIF bit). -/
inductive InputMode where
  | SingleEnded
  | Differential
  deriving DecidableEq, Repr

/-- Embeds `InputMode.value`: SingleEnded = 1, Differential = 0. -/
def InputMode.value : InputMode → Nat
  | .SingleEnded => 1
  | .Differential => 0

/-- Embeds `class ClockType(Enum)` of max1238.py (CLK bit). -/
inductive ClockType where
  | External
  | Internal
  deriving DecidableEq, Repr

/-- Embeds `ClockType.value`: External = 1, Internal = 0. -/
def ClockType.value : ClockType → Nat
  | .External => 1
  | .Internal => 0

/-- Embeds `class Polarity(Enum)` of max1238.py (BIP/UNI bit). -/
inductive Polarity where
  | Unipolar
  | Bipolar
  deriving DecidableEq, Repr

/-- Embeds `Polarity.value`: Unipolar = 0, Bipolar = 1. -/
def Polarity.value : Polarity → Nat
  | .Unipolar => 0
  | .Bipolar => 1

/-- Embeds `class ResetMode(Enum)` of max1238.py (RST bit). -/
inductive ResetMode where
  | Reset
  | NoAction
  deriving DecidableEq, Repr

/-- Embeds `ResetMode.value`: Reset = 0, NoAction = 1. -/
def ResetMode.value : ResetMode → Nat
  | .Reset => 0
  | .NoAction => 1

/-- Embeds `class ScanMode(Enum)` of max1238.py (SCAN[1:0], Table 5). -/
inductive ScanMode where
  | ScanAIN0ToCS
  | RepeatSelect8x
  | ScanAIN6ToCS
  | ConvertSelected
  deriving DecidableEq, Repr

/-- Embeds `ScanMode.value`: 0b00, 0b01, 0b10, 0b11 in declaration order. -/
def ScanMode.value : ScanMode → Nat
  | .ScanAIN0ToCS => 0
  | .RepeatSelect8x => 1
  | .ScanAIN6ToCS => 2
  | .ConvertSelected => 3

/-- Embeds `class ReferenceVoltage(Enum)` of max1238.py (SEL[2:0], Table 6). -/
inductive ReferenceVoltage where
  | VDD_AnalogIn
  | ExternalRef
  | InternalRef_AlwaysOFF_AnalogIn
  | InternalRef_AlwaysON_AnalogIn
  | InternalRef_AlwaysOFF_RefOut
  | InternalRef_AlwaysON_RefOut
  deriving DecidableEq, Repr

/-- Embeds `ReferenceVoltage.value`: 0b000, 0b010, 0b100, 0b101, 0b110, 0b111. -/
def ReferenceVoltage.value : ReferenceVoltage → Nat
  | .VDD_AnalogIn => 0
  | .ExternalRef => 2
  | .InternalRef_AlwaysOFF_AnalogIn => 4
  | .InternalRef_AlwaysON_AnalogIn => 5
  | .InternalRef_AlwaysOFF_RefOut => 6
  | .InternalRef_AlwaysON_RefOut => 7

/-- The `while attempt <= retries` retry loop inside `Max1238._xfer`:
`fuel = retries - attempt` remaining retries.  On success the attempt's
bytes are returned (`[]` when `read_len` is 0, matching
`list(msgs[-1]) if read_len else []`); on `OSError` the loop re-raises
when `attempt == retries` (fuel 0), otherwise sleeps and retries.  The
second component counts `i2c_rdwr` calls made. -/
def xferLoop (bus : Bus) (to_write : Option (List Int)) (readLen : Nat) :
    Nat → Nat → Except Err (List Nat) × Nat
  | attempt, fuel =>
    match bus to_write readLen attempt with
    | .ok bytes => (.ok (if readLen = 0 then [] else bytes), 1)
    | .error c =>
      match fuel with
      | 0 => (.error (.busFault c), 1)
      | fuel' + 1 =>
        let r := xferLoop bus to_write readLen (attempt + 1) fuel'
        (r.1, r.2 + 1)

/-- Embeds `Max1238._xfer` after write-payload normalisation: validate the write
bytes, then `read_len`; with no write and `read_len = 0` return `[]`
without touching the bus; otherwise run the retry loop.  Returns the
result together with the number of bus accesses performed. -/
def xfer (bus : Bus) (write_bytes : Option (List Int)) (read_len : Int)
    (retries : Nat) : Except Err (List Nat) × Nat :=
  match write_bytes with
  | none =>
    if read_len < 0 then (.error (.rangeError "read_len must be >= 0"), 0)
    else if read_len = 0 then (.ok [], 0)
    else xferLoop bus none read_len.toNat 0 retries
  | some ws =>
    if ws.any (fun b => decide (b < 0) || decide (255 < b)) then
      (.error (.rangeError "one or more write bytes out of range (0..255)"), 0)
    else if read_len < 0 then (.error (.rangeError "read_len must be >= 0"), 0)
    else xferLoop bus (some ws) read_len.toNat 0 retries

/-- Embeds `Max1238._build_setup_byte`: REG=1, SEL[2:0] at bits 6..4, CLK at 3,
BIP/UNI at 2, RST at 1, X=0. -/
def build_setup_byte (referenceVoltage : ReferenceVoltage) (clock : ClockType)
    (polarity : Polarity) (reset : ResetMode) : Nat :=
  (1 <<< 7) ||| (referenceVoltage.value <<< 4) ||| (clock.value <<< 3) |||
    (polarity.value <<< 2) ||| (reset.value <<< 1) ||| 0

/-- Embeds `Max1238._build_config_byte`: checks `0 <= channel <= 11`, then
REG=0, SCAN[1:0] at bits 6..5, CS[3:0] at bits 4..1, SGL/DIF at bit 0. -/
def build_config_byte (scan : ScanMode) (channel : Int) (mode : InputMode) :
    Except Err Nat :=
  if ¬(0 ≤ channel ∧ channel ≤ 11) then
    .error (.rangeError "channel must be 0..11 for MAX1238")
  else
    .ok ((0 <<< 7) ||| (scan.value <<< 5) ||| ((channel.toNat &&& 0x0F) <<< 1) |||
      (mode.value &&& 0x01))

/-- The 12-bit sample decode expression of max1238.py, used by
`read_single` (line 165) and by the word comprehensions of `read_range`
(line 187) and `read_multiple` (line 211): `((msb & 0x0F) << 8) | lsb`. -/
def decode_word (msb lsb : Nat) : Nat :=
  ((msb &&& 0x0F) <<< 8) ||| lsb

/-- The comprehension `[((raw[i] & 0x0F) << 8) | raw[i+1] for i in
range(0, len(raw), 2)]` of `read_range` / `read_multiple`: pairs of raw
bytes become 12-bit words; an odd trailing byte makes `raw[i+1]` raise
`IndexError`. -/
def decodeWords : List Nat → Except Err (List Nat)
  | [] => .ok []
  | [_] => .error .indexError
  | hi :: lo :: rest => do
    let ws ← decodeWords rest
    pure (decode_word hi lo :: ws)

/-- Proof helper: the words that `decodeWords` produces on an
even-length byte list (pairs decoded in order, any odd tail ignored). -/
def wordsOf : List Nat → List Nat
  | hi :: lo :: rest => decode_word hi lo :: wordsOf rest
  | _ => []

/-- The scan-bank selection shared by `read_range` and `read_multiple`:
`if start_channel >= 6: base = 6 else: base = 0`. -/
def scan_base (start_channel : Nat) : Nat :=
  if 6 ≤ start_channel then 6 else 0

/-- The scan-mode selection paired with `scan_base`:
`ScanAIN6ToCS` for `start_channel >= 6`, else `ScanAIN0ToCS`. -/
def scan_mode_for (start_channel : Nat) : ScanMode :=
  if 6 ≤ start_channel then .ScanAIN6ToCS else .ScanAIN0ToCS

/-- Embeds `Max1238.read_single`: build the config byte (ConvertSelected),
one transaction writing it and reading 2 bytes (default `retries = 1`),
then `msb, lsb = ...` unpacking and the 12-bit decode. -/
def read_single (bus : Bus) (channel : Int) (mode : InputMode) :
    Except Err Nat × Nat :=
  match build_config_byte .ConvertSelected channel mode with
  | .error e => (.error e, 0)
  | .ok cfg =>
    match xfer bus (some [(cfg : Int)]) 2 1 with
    | (.ok [msb, lsb], n) => (.ok (decode_word msb lsb), n)
    | (.ok _, n) => (.error .unpackError, n)
    | (.error e, n) => (.error e, n)

/-- Embeds `Max1238.read_range`: validate `0 <= start <= end <= 11`, pick the
scan bank from `start_channel`, write the config byte and read
`2 * (end_channel - base + 1)` bytes (default `retries = 1`), decode the
byte pairs, zip against `range(base, end_channel + 1)` (Python's
`dict(zip(...))`, here an ordered association list), and rebuild the
result for `range(start_channel, end_channel + 1)` by key lookup
(`results[ch]`, `KeyError` when absent). -/
def read_range (bus : Bus) (start_channel end_channel : Int)
    (mode : InputMode) : Except Err (List (Nat × Nat)) × Nat :=
  if ¬(0 ≤ start_channel ∧ start_channel ≤ end_channel ∧ end_channel ≤ 11) then
    (.error (.rangeError "Invalid channel range"), 0)
  else
    let s := start_channel.toNat
    let e := end_channel.toNat
    let base := scan_base s
    match build_config_byte (scan_mode_for s) end_channel mode with
    | .error err => (.error err, 0)
    | .ok cfg =>
      let n_res := e - base + 1
      match xfer bus (some [(cfg : Int)]) (2 * n_res) 1 with
      | (.error err, n) => (.error err, n)
      | (.ok raw, n) =>
        match decodeWords raw with
        | .error err => (.error err, n)
        | .ok words =>
          let channels := List.range' base (e + 1 - base)
          let results := channels.zip words
          match (List.range' s (e + 1 - s)).mapM
              (fun ch => match results.lookup ch with
                | some w => Except.ok (ch, w)
                | none => Except.error Err.keyError) with
          | .error err => (.error err, n)
          | .ok out => (.ok out, n)

/-- Embeds `Max1238.read_multiple`: validate `0 <= start <= 11` and
`1 <= count <= 12 - start`, compute `end_ch = start + count - 1`, pick
the scan bank from `start_channel`, write the config byte and read
`2 * (end_ch - base + 1)` bytes (default `retries = 1`), decode the byte
pairs and return the Python slice `words[drop : drop + count]` with
`drop = start_channel - base`. -/
def read_multiple (bus : Bus) (start_channel count : Int) (mode : InputMode) :
    Except Err (List Nat) × Nat :=
  if ¬(0 ≤ start_channel ∧ start_channel ≤ 11) ∨
      ¬(1 ≤ count ∧ count ≤ 12 - start_channel) then
    (.error (.rangeError "Invalid channel/count"), 0)
  else
    let s := start_channel.toNat
    let c := count.toNat
    let end_ch := s + c - 1
    let base := scan_base s
    match build_config_byte (scan_mode_for s) (end_ch : Int) mode with
    | .error err => (.error err, 0)
    | .ok cfg =>
      let n_results := end_ch - base + 1
      match xfer bus (some [(cfg : Int)]) (2 * n_results) 1 with
      | (.error err, n) => (.error err, n)
      | (.ok raw, n) =>
        match decodeWords raw with
        | .error err => (.error err, n)
        | .ok words =>
          let drop := s - base
          (.ok ((words.drop drop).take c), n)

/-- Embeds `Max1238.setup_adc`: build the setup byte and transmit it in a
write-only transaction (`read_len = 0`, default `retries = 1`). -/
def setup_adc (bus : Bus) (referenceVoltage : ReferenceVoltage)
    (clock : ClockType) (polarity : Polarity) (reset : ResetMode) :
    Except Err (List Nat) × Nat :=
  xfer bus (some [(build_setup_byte referenceVoltage clock polarity reset : Int)]) 0 1

end Max1238

namespace Max1239

/-- Embeds `class InputMode(Enum)` of max1239.py. -/
inductive InputMode where
  | SingalMode
  | DifferentialMode
  deriving DecidableEq, Repr

/-- Embeds `InputMode.value`: SingalMode = 1, DifferentialMode = 0. -/
def InputMode.value : InputMode → Nat
  | .SingalMode => 1
  | .DifferentialMode => 0

/-- Embeds `class ClockType(Enum)` of max1239.py (note: opposite values to
max1238.py's ClockType). -/
inductive ClockType where
  | ExternalClock
  | InternalClock
  deriving DecidableEq, Repr

/-- Embeds `ClockType.value`: ExternalClock = 0, InternalClock = 1. -/
def ClockType.value : ClockType → Nat
  | .ExternalClock => 0
  | .InternalClock => 1

/-- Embeds `class Polarity(Enum)` of max1239.py. -/
inductive Polarity where
  | Unipolar
  | Bipolar
  deriving DecidableEq, Repr

/-- Embeds `Polarity.value`: Unipolar = 0, Bipolar = 1. -/
def Polarity.value : Polarity → Nat
  | .Unipolar => 0
  | .Bipolar => 1

/-- Embeds `class Reset(Enum)` of max1239.py. -/
inductive Reset where
  | ResetConfig
  | NoAction
  deriving DecidableEq, Repr

/-- Embeds `Reset.value`: ResetConfig = 0, NoAction = 1. -/
def Reset.value : Reset → Nat
  | .ResetConfig => 0
  | .NoAction => 1

/-- Embeds `Max1239.create_config_binary`: validates `scan` in 0..3 and
`channel` in 0..11 (in that order), then returns
`0 << 7 | scan << 6 | channel << 4 | inputMode.value`. -/
def create_config_binary (scan channel : Int) (inputMode : InputMode) :
    Except Err Nat :=
  if 3 < scan ∨ scan < 0 then
    .error (.rangeError "Invalid Scan value should be 0 to 3")
  else if 11 < channel ∨ channel < 0 then
    .error (.rangeError "Invalid Channel value should be 0 to 11")
  else
    .ok ((0 <<< 7) ||| (scan.toNat <<< 6) ||| (channel.toNat <<< 4) |||
      inputMode.value)

/-- Embeds `Max1239.create_setup_binary`: no validation, returns
`1 << 7 | select << 6 | clockType.value << 3 | polarity.value << 2 |
reset.value << 1 | 0`.  The Python `select` parameter is a plain `int`;
reference-selector values are non-negative, so it is modelled as `Nat`. -/
def create_setup_binary (select : Nat) (clockType : ClockType)
    (polarity : Polarity) (reset : Reset) : Nat :=
  (1 <<< 7) ||| (select <<< 6) ||| (clockType.value <<< 3) |||
    (polarity.value <<< 2) ||| (reset.value <<< 1) ||| 0

/-- The 12-bit sample decode expression of `Max1239.read_channel`
(line 73): `(res[0] << 4) | (res[1] >> 4)`. -/
def decode_sample (b0 b1 : Nat) : Nat :=
  (b0 <<< 4) ||| (b1 >>> 4)

/-- The bus as `Max1239.read_channel` uses it: a `write_byte` that may
fail with an `OSError` code, and a 2-byte `read_i2c_block_data` result
(or an `OSError` code). -/
structure Bus1239 where
  writeByte : Nat → Except Nat Unit
  readBlock : Except Nat (List Nat)

/-- Embeds `Max1239.read_channel`: the `try` block builds the config byte and
writes it; a `ValueError` from the range checks is caught, printed, and
turned into `None`; an `OSError` from the bus propagates uncaught.  Then
2 bytes are read and decoded with `decode_sample` (`res[0]`/`res[1]`
raise `IndexError` when fewer than 2 bytes come back). -/
def read_channel (bus : Bus1239) (scan channel : Int)
    (inputMode : InputMode) : Except Err (Option Nat) :=
  match create_config_binary scan channel inputMode with
  | .error (.rangeError _) => .ok none
  | .error e => .error e
  | .ok config =>
    match bus.writeByte config with
    | .error c => .error (.busFault c)
    | .ok _ =>
      match bus.readBlock with
      | .error c => .error (.busFault c)
      | .ok res =>
        match res with
        | b0 :: b1 :: _ => .ok (some (decode_sample b0 b1))
        | _ => .error .indexError

end Max1239

/-- Modelled from the spec: the device-side sample encoding is not part
of the repository; this is the byte pair exactly as the claim words it —
bits 11..8 of the sample in the HIGH nibble of the first byte, bits 7..0
in the second byte. -/
def encode_pair_high (v : Nat) : Nat × Nat :=
  (((v >>> 8) &&& 0x0F) <<< 4, v &&& 0xFF)

/-- Modelled from the driver's own documentation (max1238.py docstring:
"Reading returns 12-bit results as ((MSB&0x0F)<<8)|LSB"): bits 11..8 of
the sample in the LOW nibble of the first byte (the upper nibble is
device padding, taken as 0 here), bits 7..0 in the second byte. -/
def encode_pair_low (v : Nat) : Nat × Nat :=
  ((v >>> 8) &&& 0x0F, v &&& 0xFF)

/-- The spec's config-byte layout (§4.2), written independently of the
code for comparison: [0 marker] [scanMode: 2 bits] [channel: 4 bits]
[inputMode: 1 bit], MSB first. -/
def configLayout (scanBits channelBits modeBit : Nat) : Nat :=
  scanBits * 32 + channelBits * 2 + modeBit

/-- The spec's setup-byte layout (§4.1), written independently of the
code for comparison: [1 marker] [referenceVoltage: 3 bits] [clock]
[polarity] [reset] [0 unused], MSB first. -/
def setupLayout (refBits clkBit polBit rstBit : Nat) : Nat :=
  128 + refBits * 16 + clkBit * 8 + polBit * 4 + rstBit * 2

/-- A bus that answers every transaction with the same byte list. -/
def constBus (raw : List Nat) : Bus := fun _ _ _ => .ok raw

/-- A bus that answers every request with exactly the requested number
of zero bytes. -/
def echoLenBus : Bus := fun _ l _ => .ok (List.replicate l 0)

/-- A bus whose every attempt fails, attempt `i` with `OSError` code
`code i`. -/
def failBus (code : Nat → Nat) : Bus := fun _ _ i => .error (code i)

end WHS

namespace WHS

open Max1238 in
/-- Helper: for channels in range, `Max1238._build_config_byte` produces
exactly the spec layout [0][scan:2][channel:4][inputMode:1]. -/
theorem build_config_byte_layout (scan : ScanMode) (mode : InputMode)
    (ch : Int) (h1 : 0 ≤ ch) (h2 : ch ≤ 11) :
    build_config_byte scan ch mode =
      .ok (configLayout scan.value ch.toNat mode.value) := by
  cases scan <;> cases mode <;> interval_cases ch <;> rfl

open Max1238 in
/-- Helper: `Max1238._build_setup_byte` produces exactly the spec layout
[1][ref:3][clk][pol][rst][0]. -/
theorem build_setup_byte_layout (ref : ReferenceVoltage) (clk : ClockType)
    (pol : Polarity) (rst : ResetMode) :
    build_setup_byte ref clk pol rst =
      setupLayout ref.value clk.value pol.value rst.value := by
  cases ref <;> cases clk <;> cases pol <;> cases rst <;> rfl

/-- Helper: the low-nibble byte-pair encoding round-trips through the
max1238.py decode expression for every 12-bit value. -/
theorem decode_word_encode_low (v : Nat) (hv : v ≤ 4095) :
    Max1238.decode_word (encode_pair_low v).1 (encode_pair_low v).2 = v := by
  show ((((v >>> 8) &&& 15) &&& 15) <<< 8) ||| (v &&& 255) = v
  have h15 : ((v >>> 8) &&& 15) &&& 15 = (v >>> 8) &&& 15 := by
    rw [Nat.and_assoc]; norm_num
  have e1 : (v >>> 8) &&& 15 = v / 256 % 16 := by
    rw [Nat.shiftRight_eq_div_pow]
    have h := Nat.and_pow_two_sub_one_eq_mod (v / 2 ^ 8) 4
    norm_num at h ⊢
    exact h
  have e2 : v &&& 255 = v % 256 := by
    have h := Nat.and_pow_two_sub_one_eq_mod v 8
    norm_num at h
    exact h
  have hb : v &&& 255 < 2 ^ 8 := by rw [e2]; omega
  rw [h15, Nat.shiftLeft_eq, Nat.mul_comm, ← Nat.mul_add_lt_is_or hb, e1, e2]
  norm_num
  omega

/-- C1 (counterexample): the claim as stated fails on the code.  With the
claim's own layout — bits 11..8 in the HIGH nibble of the first byte —
the max1238.py decode `((msb & 0x0F) << 8) | lsb` does not recover
v = 256; and `Max1239.read_channel`'s decode `(res[0] << 4) |
(res[1] >> 4)` does not recover v = 1 under either nibble placement. -/
theorem C1_counterexample :
    Max1238.decode_word (encode_pair_high 256).1 (encode_pair_high 256).2 ≠ 256 ∧
    Max1239.decode_sample (encode_pair_high 1).1 (encode_pair_high 1).2 ≠ 1 ∧
    Max1239.decode_sample (encode_pair_low 1).1 (encode_pair_low 1).2 ≠ 1 := by
  refine ⟨?_, ?_, ?_⟩ <;> decide

/-- C1 (amended): for every channel c in [0,11] and every 12-bit value v,
encoding v with bits 11..8 in the LOW nibble of the first byte and bits
7..0 in the second byte and decoding with the expression used by
`read_single`, `read_range` and `read_multiple` recovers exactly v;
the decode used by `Max1239.read_channel` does not (v = 1 decodes to 0). -/
theorem C1_roundtrip_low_nibble :
    (∀ c : Nat, c ≤ 11 → ∀ v : Nat, v ≤ 4095 →
      Max1238.decode_word (encode_pair_low v).1 (encode_pair_low v).2 = v) ∧
    Max1239.decode_sample (encode_pair_low 1).1 (encode_pair_low 1).2 = 0 := by
  exact ⟨fun _ _ v hv => decode_word_encode_low v hv, by decide⟩

/-- Witness for C1: channel 0, v = 2989 round-trips. -/
theorem C1_witness :
    Max1238.decode_word (encode_pair_low 2989).1 (encode_pair_low 2989).2 = 2989 :=
  C1_roundtrip_low_nibble.1 0 (by norm_num) 2989 (by norm_num)

/-- C2 (counterexample): `Max1239.create_config_binary` does not realise
the claimed layout: at channel 0, scan = 0b11 (convert selected),
single-ended, it returns 0xC1 = 193 (scan shifted by 6, not 5), not the
pinned literal 0x61. -/
theorem C2_counterexample :
    Max1239.create_config_binary 3 0 .SingalMode = .ok 193 ∧ (193 : Nat) ≠ 0x61 :=
  ⟨rfl, by decide⟩

/-- C2 (amended): for every channel in [0,11], scan mode and input mode,
`Max1238._build_config_byte` produces exactly the layout
[0][scanMode:2][channel:4][inputMode:1] and in particular 0x61 for
channel 0, convert-selected, single-ended; `Max1239.create_config_binary`
deviates (it shifts scan by 6 and channel by 4, giving 0xC1 there). -/
theorem C2_config_layout :
    (∀ (scan : Max1238.ScanMode) (mode : Max1238.InputMode) (ch : Int),
      0 ≤ ch → ch ≤ 11 →
      Max1238.build_config_byte scan ch mode =
        .ok (configLayout scan.value ch.toNat mode.value)) ∧
    Max1238.build_config_byte .ConvertSelected 0 .SingleEnded = .ok 0x61 ∧
    Max1239.create_config_binary 3 0 .SingalMode = .ok 0xC1 :=
  ⟨build_config_byte_layout, rfl, rfl⟩

/-- Witness for C2: scan-bank-6 mode, channel 9, differential. -/
theorem C2_witness :
    Max1238.build_config_byte .ScanAIN6ToCS 9 .Differential =
      .ok (configLayout 2 9 0) :=
  C2_config_layout.1 .ScanAIN6ToCS .Differential 9 (by norm_num) (by norm_num)

/-- C8 (counterexample): `Max1239.create_setup_binary` does not realise
the claimed layout: with reference bits 0b010 (ExternalRef) it returns
138, while the layout [1][ref:3][clk][pol][rst][0] gives 170. -/
theorem C8_counterexample :
    Max1239.create_setup_binary 2 .InternalClock .Unipolar .NoAction = 138 ∧
    setupLayout 2 1 0 1 = 170 ∧ (138 : Nat) ≠ 170 :=
  ⟨rfl, rfl, by decide⟩

/-- C8 (amended): for every choice of the four enumeration inputs,
`Max1238._build_setup_byte` equals the layout [1][referenceVoltage:3]
[clock][polarity][reset][0] and cannot fail (it is a total function);
`Max1239.create_setup_binary` deviates: it shifts the reference bits by
6 instead of 4 (138 instead of 170 for reference bits 0b010) and can
even exceed one byte (394 for reference bits 0b100). -/
theorem C8_setup_layout :
    (∀ (ref : Max1238.ReferenceVoltage) (clk : Max1238.ClockType)
      (pol : Max1238.Polarity) (rst : Max1238.ResetMode),
      Max1238.build_setup_byte ref clk pol rst =
        setupLayout ref.value clk.value pol.value rst.value) ∧
    Max1239.create_setup_binary 2 .InternalClock .Unipolar .NoAction = 138 ∧
    setupLayout 2 1 0 1 = 170 ∧
    Max1239.create_setup_binary 4 .InternalClock .Unipolar .NoAction = 394 ∧
    255 < 394 :=
  ⟨build_setup_byte_layout, rfl, rfl, rfl, by norm_num⟩

end WHS

namespace WHS

theorem xferLoop_all_fail (bus : Bus) (tw : Option (List Int)) (rl : Nat)
    (c : Nat → Nat) (hb : ∀ i, bus tw rl i = .error (c i)) :
    ∀ (fuel attempt : Nat),
      Max1238.xferLoop bus tw rl attempt fuel =
        (.error (.busFault (c (attempt + fuel))), fuel + 1) := by
  intro fuel
  induction fuel with
  | zero =>
    intro attempt
    unfold Max1238.xferLoop
    rw [hb attempt]
    rfl
  | succ f ih =>
    intro attempt
    unfold Max1238.xferLoop
    rw [hb attempt]
    simp only [ih (attempt + 1)]
    have h : attempt + 1 + f = attempt + (f + 1) := by omega
    rw [h]

theorem xfer_some_all_fail (bus : Bus) (ws : List Int) (rl : Int) (retries : Nat)
    (c : Nat → Nat)
    (hws : (ws.any fun b => decide (b < 0) || decide (255 < b)) = false)
    (hrl : 0 ≤ rl)
    (hb : ∀ i, bus (some ws) rl.toNat i = .error (c i)) :
    Max1238.xfer bus (some ws) rl retries =
      (.error (.busFault (c retries)), retries + 1) := by
  simp only [Max1238.xfer, hws, Bool.false_eq_true, if_false]
  rw [if_neg (by omega)]
  rw [xferLoop_all_fail bus (some ws) rl.toNat c hb retries 0]
  simp

theorem xfer_some_ok (bus : Bus) (ws : List Int) (rl : Int) (retries : Nat)
    (bytes : List Nat)
    (hws : (ws.any fun b => decide (b < 0) || decide (255 < b)) = false)
    (hrl : 0 ≤ rl)
    (hb : bus (some ws) rl.toNat 0 = .ok bytes) :
    Max1238.xfer bus (some ws) rl retries =
      (.ok (if rl.toNat = 0 then [] else bytes), 1) := by
  simp only [Max1238.xfer, hws, Bool.false_eq_true, if_false]
  rw [if_neg (by omega)]
  unfold Max1238.xferLoop
  rw [hb]

theorem configLayout_le (scan : Max1238.ScanMode) (mode : Max1238.InputMode)
    (chN : Nat) (h : chN ≤ 11) :
    configLayout scan.value chN mode.value ≤ 255 := by
  cases scan <;> cases mode <;>
    simp only [configLayout, Max1238.ScanMode.value, Max1238.InputMode.value] <;>
    omega

theorem single_byte_any_false (cfg : Nat) (h : cfg ≤ 255) :
    (([(cfg : Int)]).any fun b => decide (b < 0) || decide (255 < b)) = false := by
  simp
  omega

theorem read_single_all_fail (c : Nat → Nat) (ch : Int)
    (mode : Max1238.InputMode) (h1 : 0 ≤ ch) (h2 : ch ≤ 11) :
    Max1238.read_single (failBus c) ch mode = (.error (.busFault (c 1)), 2) := by
  unfold Max1238.read_single
  rw [build_config_byte_layout .ConvertSelected mode ch h1 h2]
  dsimp only
  rw [xfer_some_all_fail (failBus c) _ 2 1 c
    (single_byte_any_false _ (configLayout_le .ConvertSelected mode ch.toNat (by omega)))
    (by norm_num) (fun i => rfl)]

end WHS

namespace WHS

theorem read_channel_write_fault (c0 : Nat) (rb : Except Nat (List Nat))
    (scan ch : Int) (im : Max1239.InputMode)
    (hs1 : 0 ≤ scan) (hs2 : scan ≤ 3) (hc1 : 0 ≤ ch) (hc2 : ch ≤ 11) :
    Max1239.read_channel ⟨fun _ => .error c0, rb⟩ scan ch im =
      .error (.busFault c0) := by
  unfold Max1239.read_channel Max1239.create_config_binary
  rw [if_neg (by omega), if_neg (by omega)]

/-- C5: when every bus attempt fails with a transient fault, `_xfer`
surfaces the last attempt's fault after exactly `retries + 1` attempts
(never a value); `read_single` (which uses the default `retries = 1`)
surfaces it after exactly 2 attempts; and `Max1239.read_channel`
propagates a write fault as an error, not as `None` or a sentinel. -/
theorem C5_fault_surfaced :
    (∀ (bus : Bus) (ws : List Int) (rl : Int) (retries : Nat) (c : Nat → Nat),
      (ws.any fun b => decide (b < 0) || decide (255 < b)) = false → 0 ≤ rl →
      (∀ i, bus (some ws) rl.toNat i = .error (c i)) →
      Max1238.xfer bus (some ws) rl retries =
        (.error (.busFault (c retries)), retries + 1)) ∧
    (∀ (c : Nat → Nat) (ch : Int) (mode : Max1238.InputMode),
      0 ≤ ch → ch ≤ 11 →
      Max1238.read_single (failBus c) ch mode =
        (.error (.busFault (c 1)), 2)) ∧
    (∀ (c0 : Nat) (rb : Except Nat (List Nat)) (scan ch : Int)
      (im : Max1239.InputMode), 0 ≤ scan → scan ≤ 3 → 0 ≤ ch → ch ≤ 11 →
      Max1239.read_channel ⟨fun _ => .error c0, rb⟩ scan ch im =
        .error (.busFault c0)) :=
  ⟨xfer_some_all_fail, read_single_all_fail,
   fun c0 rb scan ch im hs1 hs2 hc1 hc2 =>
     read_channel_write_fault c0 rb scan ch im hs1 hs2 hc1 hc2⟩

/-- Witness for C5: retries = 2, every attempt failing with code 40 + i:
fault code 42 surfaces after 3 attempts; read_single surfaces code 41
after 2 attempts; read_channel propagates code 9. -/
theorem C5_witness :
    Max1238.xfer (failBus (fun i => 40 + i)) (some [97]) 2 2 =
        (.error (.busFault 42), 3) ∧
    Max1238.read_single (failBus (fun i => 40 + i)) 0 .SingleEnded =
        (.error (.busFault 41), 2) ∧
    Max1239.read_channel ⟨fun _ => .error 9, .ok [0, 0]⟩ 0 0 .SingalMode =
        .error (.busFault 9) :=
  ⟨C5_fault_surfaced.1 (failBus (fun i => 40 + i)) [97] 2 2 (fun i => 40 + i)
      (by decide) (by norm_num) (fun i => rfl),
   C5_fault_surfaced.2.1 (fun i => 40 + i) 0 .SingleEnded (by norm_num) (by norm_num),
   C5_fault_surfaced.2.2 9 (.ok [0, 0]) 0 0 .SingalMode
      (by norm_num) (by norm_num) (by norm_num) (by norm_num)⟩

/-- C6: a RangeError is raised with zero bus accesses for `read_single`
with channel 12 or -1, `read_range` with `start > end` or an endpoint
outside [0,11], and `read_multiple` with `count = 0` or
`count > 12 - start`. -/
theorem C6_range_errors :
    (∀ (bus : Bus) (mode : Max1238.InputMode),
      Max1238.read_single bus 12 mode =
        (.error (.rangeError "channel must be 0..11 for MAX1238"), 0)) ∧
    (∀ (bus : Bus) (mode : Max1238.InputMode),
      Max1238.read_single bus (-1) mode =
        (.error (.rangeError "channel must be 0..11 for MAX1238"), 0)) ∧
    (∀ (bus : Bus) (mode : Max1238.InputMode) (s e : Int),
      (e < s ∨ s < 0 ∨ 11 < s ∨ e < 0 ∨ 11 < e) →
      Max1238.read_range bus s e mode =
        (.error (.rangeError "Invalid channel range"), 0)) ∧
    (∀ (bus : Bus) (mode : Max1238.InputMode) (s : Int),
      Max1238.read_multiple bus s 0 mode =
        (.error (.rangeError "Invalid channel/count"), 0)) ∧
    (∀ (bus : Bus) (mode : Max1238.InputMode) (s cnt : Int),
      12 - s < cnt →
      Max1238.read_multiple bus s cnt mode =
        (.error (.rangeError "Invalid channel/count"), 0)) := by
  refine ⟨fun bus mode => rfl, fun bus mode => rfl, ?_, ?_, ?_⟩
  · intro bus mode s e h
    unfold Max1238.read_range
    rw [if_pos (by omega)]
  · intro bus mode s
    unfold Max1238.read_multiple
    rw [if_pos (by omega)]
  · intro bus mode s cnt h
    unfold Max1238.read_multiple
    rw [if_pos (by omega)]

/-- Witness for C6: read_range with start 7 > end 3 raises the range
error without touching the bus. -/
theorem C6_witness :
    Max1238.read_range (constBus []) 7 3 .SingleEnded =
      (.error (.rangeError "Invalid channel range"), 0) :=
  C6_range_errors.2.2.1 (constBus []) .SingleEnded 7 3 (by norm_num)

/-- C9: `_xfer` raises a RangeError before any bus access (zero accesses)
when a write byte lies outside [0,255] or the read length is negative. -/
theorem C9_xfer_validation :
    (∀ (bus : Bus) (ws : List Int) (rl : Int) (retries : Nat),
      (∃ b ∈ ws, b < 0 ∨ 255 < b) →
      Max1238.xfer bus (some ws) rl retries =
        (.error (.rangeError "one or more write bytes out of range (0..255)"), 0)) ∧
    (∀ (bus : Bus) (ws : List Int) (rl : Int) (retries : Nat),
      (∀ b ∈ ws, 0 ≤ b ∧ b ≤ 255) → rl < 0 →
      Max1238.xfer bus (some ws) rl retries =
        (.error (.rangeError "read_len must be >= 0"), 0)) ∧
    (∀ (bus : Bus) (rl : Int) (retries : Nat), rl < 0 →
      Max1238.xfer bus none rl retries =
        (.error (.rangeError "read_len must be >= 0"), 0)) := by
  refine ⟨?_, ?_, ?_⟩
  · intro bus ws rl retries h
    have hany : (ws.any fun b => decide (b < 0) || decide (255 < b)) = true := by
      rw [List.any_eq_true]
      obtain ⟨b, hb, hout⟩ := h
      exact ⟨b, hb, by rcases hout with h1 | h1 <;> simp <;> omega⟩
    simp only [Max1238.xfer, hany, if_true]
  · intro bus ws rl retries hin hneg
    have hany : (ws.any fun b => decide (b < 0) || decide (255 < b)) = false := by
      rw [List.any_eq_false]
      intro b hb
      have := hin b hb
      simp
      omega
    simp only [Max1238.xfer, hany, Bool.false_eq_true, if_false]
    rw [if_pos hneg]
  · intro bus rl retries hneg
    simp only [Max1238.xfer]
    rw [if_pos hneg]

/-- Witness for C9: a write byte 300 (and one of -2) each abort before
any bus access; so does a read length of -1. -/
theorem C9_witness :
    Max1238.xfer (constBus []) (some [3, 300]) 2 1 =
        (.error (.rangeError "one or more write bytes out of range (0..255)"), 0) ∧
    Max1238.xfer (constBus []) (some [3, 7]) (-1) 1 =
        (.error (.rangeError "read_len must be >= 0"), 0) ∧
    Max1238.xfer (constBus []) none (-1) 1 =
        (.error (.rangeError "read_len must be >= 0"), 0) :=
  ⟨C9_xfer_validation.1 (constBus []) [3, 300] 2 1
      ⟨300, by norm_num, by norm_num⟩,
   C9_xfer_validation.2.1 (constBus []) [3, 7] (-1) 1
      (by intro b hb; simp at hb; rcases hb with h | h <;> omega) (by norm_num),
   C9_xfer_validation.2.2 (constBus []) (-1) 1 (by norm_num)⟩

end WHS

namespace WHS

open Max1238 in
theorem decodeWords_even : ∀ raw : List Nat, raw.length % 2 = 0 →
    decodeWords raw = .ok (wordsOf raw)
  | [], _ => rfl
  | [x], h => by simp at h
  | hi :: lo :: rest, h => by
    have hr : rest.length % 2 = 0 := by simp at h; omega
    unfold decodeWords wordsOf
    rw [decodeWords_even rest hr]
    rfl

open Max1238 in
theorem wordsOf_length : ∀ raw : List Nat, (wordsOf raw).length = raw.length / 2
  | [] => rfl
  | [x] => by simp [wordsOf]
  | hi :: lo :: rest => by
    unfold wordsOf
    simp only [List.length_cons, wordsOf_length rest]
    omega

open Max1238 in
theorem wordsOf_getD : ∀ (raw : List Nat) (k : Nat), 2 * k + 1 < raw.length →
    (wordsOf raw).getD k 0 =
      decode_word (raw.getD (2 * k) 0) (raw.getD (2 * k + 1) 0)
  | [], k, h => by simp at h
  | [x], k, h => by simp at h
  | hi :: lo :: rest, 0, _ => rfl
  | hi :: lo :: rest, k + 1, h => by
    have hlt : 2 * k + 1 < rest.length := by simp at h; omega
    have h1 : 2 * (k + 1) = (2 * k + 1) + 1 := by omega
    show (wordsOf rest).getD k 0 = _
    rw [wordsOf_getD rest k hlt, h1]
    simp only [List.getD_cons_succ]

theorem lookup_zip_range' : ∀ (n base ch : Nat) (ws : List Nat),
    base ≤ ch → ch < base + n → n ≤ ws.length →
    ((List.range' base n).zip ws).lookup ch = some (ws.getD (ch - base) 0)
  | 0, base, ch, ws, h1, h2, _ => by omega
  | n + 1, base, ch, ws, h1, h2, h3 => by
    match ws with
    | [] => simp at h3
    | w :: ws' =>
      rw [List.range'_succ]
      by_cases hc : ch = base
      · subst hc
        simp [List.lookup]
      · have hb1 : base + 1 ≤ ch := by omega
        have key := lookup_zip_range' n (base + 1) ch ws' hb1 (by omega)
          (by simp at h3 ⊢; omega)
        simp only [List.zip_cons_cons, List.lookup]
        have hne : (ch == base) = false := by simp [hc]
        rw [hne]
        simp only [key]
        have hsub : ch - base = (ch - (base + 1)) + 1 := by omega
        rw [hsub, List.getD_cons_succ]
        exact key

theorem lookup_mem : ∀ (l : List (Nat × Nat)) (k v : Nat),
    l.lookup k = some v → (k, v) ∈ l
  | [], k, v, h => by simp [List.lookup] at h
  | (a, b) :: l, k, v, h => by
    simp only [List.lookup] at h
    by_cases hk : k = a
    · subst hk
      simp at h
      simp [h]
    · have hne : (k == a) = false := by simp [hk]
      rw [hne] at h
      exact List.mem_cons_of_mem _ (lookup_mem l k v h)

theorem mapM_lookup_ok (results : List (Nat × Nat)) (g : Nat → Nat) :
    ∀ l : List Nat, (∀ ch ∈ l, results.lookup ch = some (g ch)) →
      (l.mapM (fun ch => match results.lookup ch with
        | some w => Except.ok (ch, w)
        | none => Except.error Err.keyError)) =
        Except.ok (l.map fun ch => (ch, g ch)) := by
  intro l
  induction l with
  | nil => intro _; rfl
  | cons a l ih =>
    intro h
    rw [List.mapM_cons, h a (by simp)]
    simp only [List.map_cons]
    rw [ih (fun ch hch => h ch (by simp [hch]))]
    rfl

end WHS

namespace WHS

theorem mem_range'_iff (s n m : Nat) : m ∈ List.range' s n ↔ s ≤ m ∧ m < s + n := by
  rw [List.mem_range']
  constructor
  · rintro ⟨i, hi, rfl⟩
    omega
  · rintro ⟨h1, h2⟩
    exact ⟨m - s, by omega, by omega⟩

theorem scan_base_le (s : Nat) : Max1238.scan_base s ≤ s := by
  unfold Max1238.scan_base
  split <;> omega

open Max1238 in
theorem read_range_eval (bus : Bus) (s e : Nat) (mode : InputMode)
    (raw : List Nat) (hse : s ≤ e) (he : e ≤ 11)
    (hraw : raw.length = 2 * (e - scan_base s + 1))
    (hbus : bus (some [(configLayout (scan_mode_for s).value e mode.value : Int)])
        (2 * (e - scan_base s + 1)) 0 = .ok raw) :
    read_range bus (s : Int) (e : Int) mode =
      (.ok ((List.range' s (e + 1 - s)).map (fun ch =>
        (ch, decode_word (raw.getD (2 * (ch - scan_base s)) 0)
          (raw.getD (2 * (ch - scan_base s) + 1) 0)))), 1) := by
  unfold read_range
  rw [if_neg (by omega)]
  simp only [Int.toNat_natCast]
  rw [build_config_byte_layout (scan_mode_for s) mode (e : Int) (by omega) (by omega)]
  dsimp only
  simp only [Int.toNat_natCast]
  have hcfg_le : configLayout (scan_mode_for s).value e mode.value ≤ 255 :=
    configLayout_le _ _ e he
  have hrd : ((2 : Int) * ((e - scan_base s + 1 : Nat) : Int)).toNat
      = 2 * (e - scan_base s + 1) := by omega
  rw [xfer_some_ok bus _ _ 1 raw
    (single_byte_any_false _ hcfg_le) (by positivity) (by rw [hrd]; exact hbus)]
  rw [if_neg (by omega)]
  dsimp only
  rw [decodeWords_even raw (by omega)]
  dsimp only
  rw [mapM_lookup_ok (((List.range' (scan_base s) (e + 1 - scan_base s))).zip
      (wordsOf raw)) (fun ch => (wordsOf raw).getD (ch - scan_base s) 0)
    (List.range' s (e + 1 - s)) ?_]
  · dsimp only
    congr 1
    congr 1
    apply List.map_congr_left
    intro ch hch
    rw [mem_range'_iff] at hch
    have hch2 : 2 * (ch - scan_base s) + 1 < raw.length := by
      have := scan_base_le s
      omega
    rw [wordsOf_getD raw (ch - scan_base s) hch2]
  · intro ch hch
    rw [mem_range'_iff] at hch
    have hb := scan_base_le s
    apply lookup_zip_range'
    · omega
    · omega
    · rw [wordsOf_length, hraw]
      omega

end WHS

namespace WHS

open Max1238 in
theorem read_multiple_eval (bus : Bus) (s cnt : Nat) (mode : InputMode)
    (raw : List Nat) (h1 : 1 ≤ cnt) (h2 : cnt ≤ 12 - s)
    (hraw : raw.length = 2 * ((s + cnt - 1) - scan_base s + 1))
    (hbus : bus (some [(configLayout (scan_mode_for s).value (s + cnt - 1)
        mode.value : Int)]) (2 * ((s + cnt - 1) - scan_base s + 1)) 0 = .ok raw) :
    read_multiple bus (s : Int) (cnt : Int) mode =
      (.ok (((wordsOf raw).drop (s - scan_base s)).take cnt), 1) := by
  unfold read_multiple
  rw [if_neg (by omega)]
  simp only [Int.toNat_natCast]
  have hend : ((s + cnt - 1 : Nat) : Int).toNat = s + cnt - 1 := by omega
  rw [build_config_byte_layout (scan_mode_for s) mode ((s + cnt - 1 : Nat) : Int)
    (by omega) (by omega)]
  dsimp only
  rw [hend]
  have hcfg_le : configLayout (scan_mode_for s).value (s + cnt - 1) mode.value ≤ 255 :=
    configLayout_le _ _ _ (by omega)
  rw [xfer_some_ok bus _ _ 1 raw
    (single_byte_any_false _ hcfg_le) (by positivity)
    (by
      have hrd : ((2 : Int) * (((s + cnt - 1) - scan_base s + 1 : Nat) : Int)).toNat
          = 2 * ((s + cnt - 1) - scan_base s + 1) := by omega
      rw [hrd]
      exact hbus)]
  rw [if_neg (by omega)]
  dsimp only
  rw [decodeWords_even raw (by omega)]

/-- C3: for every valid range request, the scan plan picks baseChannel in
{0,6} with baseChannel ≤ start (bank 0 below start 6, bank 6 from 6 up),
and read_range / read_multiple request exactly
2 × (endChannel − baseChannel + 1) bytes from the bus: a bus that faults
on any other requested length behaves identically to one that answers
every request. -/
theorem C3_scan_plan :
    (∀ s e : Nat, s ≤ e → e ≤ 11 →
      (Max1238.scan_base s = 0 ∨ Max1238.scan_base s = 6) ∧
      Max1238.scan_base s ≤ s ∧
      (s < 6 → Max1238.scan_base s = 0 ∧
        Max1238.scan_mode_for s = .ScanAIN0ToCS) ∧
      (6 ≤ s → Max1238.scan_base s = 6 ∧
        Max1238.scan_mode_for s = .ScanAIN6ToCS)) ∧
    (∀ (s e : Nat) (mode : Max1238.InputMode) (raw : List Nat),
      s ≤ e → e ≤ 11 → raw.length = 2 * (e - Max1238.scan_base s + 1) →
      Max1238.read_range (fun w l i =>
          if l = 2 * (e - Max1238.scan_base s + 1) then constBus raw w l i
          else .error 0) (s : Int) (e : Int) mode =
        Max1238.read_range (constBus raw) (s : Int) (e : Int) mode) ∧
    (∀ (s cnt : Nat) (mode : Max1238.InputMode) (raw : List Nat),
      1 ≤ cnt → cnt ≤ 12 - s →
      raw.length = 2 * ((s + cnt - 1) - Max1238.scan_base s + 1) →
      Max1238.read_multiple (fun w l i =>
          if l = 2 * ((s + cnt - 1) - Max1238.scan_base s + 1) then constBus raw w l i
          else .error 0) (s : Int) (cnt : Int) mode =
        Max1238.read_multiple (constBus raw) (s : Int) (cnt : Int) mode) := by
  refine ⟨?_, ?_, ?_⟩
  · intro s e hse he
    by_cases h6 : 6 ≤ s
    · refine ⟨Or.inr (by simp [Max1238.scan_base, h6]), scan_base_le s,
        fun hlt => absurd h6 (by omega), fun _ =>
          ⟨by simp [Max1238.scan_base, h6], by simp [Max1238.scan_mode_for, h6]⟩⟩
    · refine ⟨Or.inl (by simp [Max1238.scan_base, h6]), scan_base_le s,
        fun _ => ⟨by simp [Max1238.scan_base, h6],
          by simp [Max1238.scan_mode_for, h6]⟩,
        fun h => absurd h h6⟩
  · intro s e mode raw hse he hraw
    rw [read_range_eval _ s e mode raw hse he hraw (by rw [if_pos rfl]; rfl),
      read_range_eval (constBus raw) s e mode raw hse he hraw rfl]
  · intro s cnt mode raw h1 h2 hraw
    rw [read_multiple_eval _ s cnt mode raw h1 h2 hraw (by rw [if_pos rfl]; rfl),
      read_multiple_eval (constBus raw) s cnt mode raw h1 h2 hraw rfl]

/-- Witness for C3: start 3, end 5 plans bank 0; start 8 plans bank 6
(via the first conjunct at s = 8, e = 9). -/
theorem C3_witness :
    (Max1238.scan_base 3 = 0 ∨ Max1238.scan_base 3 = 6) ∧
      Max1238.scan_base 3 ≤ 3 ∧
      (3 < 6 → Max1238.scan_base 3 = 0 ∧
        Max1238.scan_mode_for 3 = .ScanAIN0ToCS) ∧
      (6 ≤ 3 → Max1238.scan_base 3 = 6 ∧
        Max1238.scan_mode_for 3 = .ScanAIN6ToCS) :=
  C3_scan_plan.1 3 5 (by norm_num) (by norm_num)

/-- C4: over a bus returning the expected number of bytes, read_range
returns exactly the channels start..end in ascending order, channel ch
bound to the sample decoded from the (ch − baseChannel)-th byte pair. -/
theorem C4_read_range_mapping :
    ∀ (s e : Nat) (mode : Max1238.InputMode) (raw : List Nat),
      s ≤ e → e ≤ 11 → raw.length = 2 * (e - Max1238.scan_base s + 1) →
      Max1238.read_range (constBus raw) (s : Int) (e : Int) mode =
        (.ok ((List.range' s (e + 1 - s)).map (fun ch =>
          (ch, Max1238.decode_word
            (raw.getD (2 * (ch - Max1238.scan_base s)) 0)
            (raw.getD (2 * (ch - Max1238.scan_base s) + 1) 0)))), 1) :=
  fun s e mode raw hse he hraw =>
    read_range_eval (constBus raw) s e mode raw hse he hraw rfl

/-- Witness for C4: the spec's example — readRange(6,9) over raw words
0x100, 0x200, 0x300, 0x400 yields exactly
{6: 0x100, 7: 0x200, 8: 0x300, 9: 0x400}. -/
theorem C4_witness :
    Max1238.read_range (constBus [1, 0, 2, 0, 3, 0, 4, 0]) 6 9 .SingleEnded =
      (.ok [(6, 0x100), (7, 0x200), (8, 0x300), (9, 0x400)], 1) :=
  (C4_read_range_mapping 6 9 .SingleEnded [1, 0, 2, 0, 3, 0, 4, 0]
    (by norm_num) (by norm_num) (by decide)).trans (by rfl)

end WHS

namespace WHS

/-- C7 (counterexample): no ProtocolError exists on a byte-count
mismatch.  read_multiple(0, 3) over a bus that returns only 2 bytes
(one word instead of three) succeeds with the truncated list [0x102]
— one sample instead of three, and no error of any kind. -/
theorem C7_counterexample :
    Max1238.read_multiple (constBus [1, 2]) 0 3 .SingleEnded =
      (.ok [258], 1) ∧ (1 : Nat) ≠ 3 :=
  ⟨rfl, by decide⟩

/-- C7 (amended): the decode step performs no length validation and no
distinguishable ProtocolError exists.  read_single fails with a plain
tuple-unpacking error whenever the byte count differs from 2;
read_range fails with IndexError on an odd byte count and with KeyError
when whole pairs are missing, but silently ignores extra bytes;
read_multiple silently returns a truncated result when pairs are
missing. -/
theorem C7_no_length_validation :
    (∀ (ch : Int) (mode : Max1238.InputMode) (raw : List Nat),
      0 ≤ ch → ch ≤ 11 → raw.length ≠ 2 →
      Max1238.read_single (constBus raw) ch mode = (.error .unpackError, 1)) ∧
    Max1238.read_multiple (constBus [1, 2]) 0 3 .SingleEnded = (.ok [258], 1) ∧
    Max1238.read_range (constBus [1, 0, 2, 0, 3, 0]) 0 1 .SingleEnded =
      (.ok [(0, 256), (1, 512)], 1) ∧
    Max1238.read_range (constBus [1, 0]) 0 1 .SingleEnded =
      (.error .keyError, 1) ∧
    Max1238.read_range (constBus [1, 0, 2]) 0 1 .SingleEnded =
      (.error .indexError, 1) := by
  refine ⟨?_, rfl, rfl, rfl, rfl⟩
  intro ch mode raw h1 h2 hlen
  unfold Max1238.read_single
  rw [build_config_byte_layout .ConvertSelected mode ch h1 h2]
  dsimp only
  rw [xfer_some_ok (constBus raw) _ 2 1 raw
    (single_byte_any_false _ (configLayout_le .ConvertSelected mode ch.toNat (by omega)))
    (by norm_num) rfl]
  match raw, hlen with
  | [], _ => rfl
  | [a], _ => rfl
  | a :: b :: c :: rest, _ => rfl
  | [a, b], h => exact absurd rfl h

/-- Witness for C7: a 0-byte response to read_single yields the plain
unpacking error. -/
theorem C7_witness :
    Max1238.read_single (constBus []) 0 .SingleEnded =
      (.error .unpackError, 1) :=
  C7_no_length_validation.1 0 .SingleEnded [] (by norm_num) (by norm_num)
    (by norm_num)

end WHS

namespace WHS

theorem xferLoop_ok_source (bus : Bus) (tw : Option (List Int)) (rl : Nat) :
    ∀ (fuel attempt : Nat) (bytes : List Nat) (n : Nat),
      Max1238.xferLoop bus tw rl attempt fuel = (.ok bytes, n) →
      bytes = [] ∨ ∃ i, bus tw rl i = .ok bytes := by
  intro fuel
  induction fuel with
  | zero =>
    intro attempt bytes n h
    unfold Max1238.xferLoop at h
    cases hb : bus tw rl attempt with
    | ok bts =>
      rw [hb] at h
      dsimp only at h
      by_cases hrl : rl = 0
      · rw [if_pos hrl] at h
        simp only [Prod.mk.injEq, Except.ok.injEq] at h
        exact Or.inl h.1.symm
      · rw [if_neg hrl] at h
        simp only [Prod.mk.injEq, Except.ok.injEq] at h
        exact Or.inr ⟨attempt, by rw [hb, h.1]⟩
    | error c =>
      rw [hb] at h
      dsimp only at h
      simp at h
  | succ f ih =>
    intro attempt bytes n h
    unfold Max1238.xferLoop at h
    cases hb : bus tw rl attempt with
    | ok bts =>
      rw [hb] at h
      dsimp only at h
      by_cases hrl : rl = 0
      · rw [if_pos hrl] at h
        simp only [Prod.mk.injEq, Except.ok.injEq] at h
        exact Or.inl h.1.symm
      · rw [if_neg hrl] at h
        simp only [Prod.mk.injEq, Except.ok.injEq] at h
        exact Or.inr ⟨attempt, by rw [hb, h.1]⟩
    | error c =>
      rw [hb] at h
      dsimp only at h
      simp only [Prod.mk.injEq] at h
      exact ih (attempt + 1) bytes
        (Max1238.xferLoop bus tw rl (attempt + 1) f).2
        (Prod.ext h.1 rfl)

theorem xfer_ok_source (bus : Bus) (ws : List Int) (rl : Int) (retries : Nat)
    (bytes : List Nat) (n : Nat)
    (h : Max1238.xfer bus (some ws) rl retries = (.ok bytes, n)) :
    bytes = [] ∨ ∃ i, bus (some ws) rl.toNat i = .ok bytes := by
  simp only [Max1238.xfer] at h
  split at h
  · simp at h
  · split at h
    · simp at h
    · exact xferLoop_ok_source bus (some ws) rl.toNat retries 0 bytes n h

theorem decode_word_le (msb lsb : Nat) (h : lsb ≤ 255) :
    Max1238.decode_word msb lsb ≤ 4095 := by
  have h1 : (msb &&& 15) <<< 8 < 2 ^ 12 := by
    rw [Nat.shiftLeft_eq]
    have h15 : msb &&& 15 ≤ 15 := Nat.and_le_right
    norm_num
    omega
  have h2 : lsb < 2 ^ 12 := by norm_num; omega
  have h3 := Nat.or_lt_two_pow h1 h2
  unfold Max1238.decode_word
  norm_num at h3 ⊢
  omega

theorem decodeWords_mem_le : ∀ (raw ws : List Nat), (∀ b ∈ raw, b ≤ 255) →
    Max1238.decodeWords raw = .ok ws → ∀ w ∈ ws, w ≤ 4095
  | [], ws, _, h => by cases h; simp
  | [x], ws, _, h => by cases h
  | hi :: lo :: rest, ws, hb, h => by
    unfold Max1238.decodeWords at h
    cases hrec : Max1238.decodeWords rest with
    | error e => rw [hrec] at h; cases h
    | ok ws' =>
      rw [hrec] at h
      cases h
      intro w hw
      rcases List.mem_cons.mp hw with rfl | hw'
      · exact decode_word_le hi lo (hb lo (by simp))
      · exact decodeWords_mem_le rest ws'
          (fun b hb' => hb b (by simp [hb'])) hrec w hw'

theorem mapM_ok_mem {α β : Type} (f : α → Except Err β) :
    ∀ (l : List α) (out : List β), l.mapM f = .ok out →
      ∀ p ∈ out, ∃ a ∈ l, f a = .ok p := by
  intro l
  induction l with
  | nil =>
    intro out h p hp
    rw [List.mapM_nil] at h
    cases h
    simp at hp
  | cons a l ih =>
    intro out h p hp
    rw [List.mapM_cons] at h
    cases hfa : f a with
    | error e => rw [hfa] at h; cases h
    | ok b =>
      rw [hfa] at h
      cases hml : l.mapM f with
      | error e => rw [hml] at h; cases h
      | ok bs =>
        rw [hml] at h
        cases h
        rcases List.mem_cons.mp hp with rfl | hp'
        · exact ⟨a, by simp, hfa⟩
        · obtain ⟨a', ha', hfa'⟩ := ih bs hml p hp'
          exact ⟨a', by simp [ha'], hfa'⟩

end WHS

namespace WHS

theorem read_single_le (bus : Bus)
    (hbus : ∀ tw l i bts, bus tw l i = .ok bts → ∀ b ∈ bts, b ≤ 255)
    (ch : Int) (mode : Max1238.InputMode) (v n : Nat)
    (h : Max1238.read_single bus ch mode = (.ok v, n)) : v ≤ 4095 := by
  unfold Max1238.read_single at h
  cases hcfg : Max1238.build_config_byte .ConvertSelected ch mode with
  | error e => rw [hcfg] at h; simp at h
  | ok cfg =>
    rw [hcfg] at h
    dsimp only at h
    rcases hx : Max1238.xfer bus (some [(cfg : Int)]) 2 1 with ⟨r, m⟩
    rw [hx] at h
    cases r with
    | error e => simp at h
    | ok bytes =>
      rcases bytes with _ | ⟨msb, _ | ⟨lsb, _ | ⟨x, rest⟩⟩⟩
      · simp at h
      · simp at h
      · simp only [Prod.mk.injEq, Except.ok.injEq] at h
        rcases xfer_ok_source bus _ _ _ _ _ hx with hempty | ⟨i, hbusi⟩
        · simp at hempty
        · have hlsb := hbus _ _ _ _ hbusi lsb (by simp)
          rw [← h.1]
          exact decode_word_le msb lsb hlsb
      · simp at h

theorem read_range_le (bus : Bus)
    (hbus : ∀ tw l i bts, bus tw l i = .ok bts → ∀ b ∈ bts, b ≤ 255)
    (s e : Int) (mode : Max1238.InputMode) (out : List (Nat × Nat)) (n : Nat)
    (h : Max1238.read_range bus s e mode = (.ok out, n)) :
    ∀ p ∈ out, p.2 ≤ 4095 := by
  unfold Max1238.read_range at h
  split at h
  · simp at h
  · dsimp only at h
    cases hcfg : Max1238.build_config_byte (Max1238.scan_mode_for s.toNat) e mode with
    | error err => rw [hcfg] at h; simp at h
    | ok cfg =>
      rw [hcfg] at h
      dsimp only at h
      rcases hx : Max1238.xfer bus (some [(cfg : Int)])
          (2 * ((e.toNat - Max1238.scan_base s.toNat + 1 : Nat) : Int)) 1
          with ⟨r, m⟩
      rw [hx] at h
      cases r with
      | error err => simp at h
      | ok raw =>
        dsimp only at h
        cases hdw : Max1238.decodeWords raw with
        | error err => rw [hdw] at h; simp at h
        | ok words =>
          rw [hdw] at h
          dsimp only at h
          cases hmm : (List.range' s.toNat (e.toNat + 1 - s.toNat)).mapM
              (fun ch =>
                match (((List.range' (Max1238.scan_base s.toNat)
                    (e.toNat + 1 - Max1238.scan_base s.toNat))).zip words).lookup ch with
                | some w => Except.ok (ch, w)
                | none => Except.error Err.keyError) with
          | error err => rw [hmm] at h; simp at h
          | ok out' =>
            rw [hmm] at h
            simp only [Prod.mk.injEq, Except.ok.injEq] at h
            have hbytes : ∀ b ∈ raw, b ≤ 255 := by
              rcases xfer_ok_source bus _ _ _ _ _ hx with rfl | ⟨i, hbusi⟩
              · simp
              · exact hbus _ _ _ _ hbusi
            have hwords := decodeWords_mem_le raw words hbytes hdw
            intro p hp
            rw [← h.1] at hp
            obtain ⟨ch, _, hfa⟩ := mapM_ok_mem _ _ _ hmm p hp
            cases hlk : (((List.range' (Max1238.scan_base s.toNat)
                (e.toNat + 1 - Max1238.scan_base s.toNat))).zip words).lookup ch with
            | none => rw [hlk] at hfa; cases hfa
            | some w =>
              rw [hlk] at hfa
              cases hfa
              have hmem := lookup_mem _ _ _ hlk
              exact hwords w (List.of_mem_zip hmem).2

theorem read_multiple_le (bus : Bus)
    (hbus : ∀ tw l i bts, bus tw l i = .ok bts → ∀ b ∈ bts, b ≤ 255)
    (s cnt : Int) (mode : Max1238.InputMode) (out : List Nat) (n : Nat)
    (h : Max1238.read_multiple bus s cnt mode = (.ok out, n)) :
    ∀ v ∈ out, v ≤ 4095 := by
  unfold Max1238.read_multiple at h
  split at h
  · simp at h
  · dsimp only at h
    cases hcfg : Max1238.build_config_byte (Max1238.scan_mode_for s.toNat)
        ((s.toNat + cnt.toNat - 1 : Nat) : Int) mode with
    | error err => rw [hcfg] at h; simp at h
    | ok cfg =>
      rw [hcfg] at h
      dsimp only at h
      rcases hx : Max1238.xfer bus (some [(cfg : Int)])
          (2 * ((s.toNat + cnt.toNat - 1 - Max1238.scan_base s.toNat + 1 : Nat) : Int)) 1
          with ⟨r, m⟩
      rw [hx] at h
      cases r with
      | error err => simp at h
      | ok raw =>
        dsimp only at h
        cases hdw : Max1238.decodeWords raw with
        | error err => rw [hdw] at h; simp at h
        | ok words =>
          rw [hdw] at h
          simp only [Prod.mk.injEq, Except.ok.injEq] at h
          have hbytes : ∀ b ∈ raw, b ≤ 255 := by
            rcases xfer_ok_source bus _ _ _ _ _ hx with rfl | ⟨i, hbusi⟩
            · simp
            · exact hbus _ _ _ _ hbusi
          have hwords := decodeWords_mem_le raw words hbytes hdw
          intro v hv
          rw [← h.1] at hv
          exact hwords v (List.mem_of_mem_drop (List.mem_of_mem_take hv))

/-- C10: whatever byte values the bus returns (each in [0,255]), every
sample produced by read_single, read_range and read_multiple lies in
[0,4095]: the 12-bit masking in the decode expression makes out-of-range
samples impossible. -/
theorem C10_samples_are_12bit (bus : Bus)
    (hbus : ∀ tw l i bts, bus tw l i = .ok bts → ∀ b ∈ bts, b ≤ 255) :
    (∀ (ch : Int) (mode : Max1238.InputMode) (v n : Nat),
      Max1238.read_single bus ch mode = (.ok v, n) → v ≤ 4095) ∧
    (∀ (s e : Int) (mode : Max1238.InputMode) (out : List (Nat × Nat)) (n : Nat),
      Max1238.read_range bus s e mode = (.ok out, n) → ∀ p ∈ out, p.2 ≤ 4095) ∧
    (∀ (s cnt : Int) (mode : Max1238.InputMode) (out : List Nat) (n : Nat),
      Max1238.read_multiple bus s cnt mode = (.ok out, n) → ∀ v ∈ out, v ≤ 4095) :=
  ⟨fun ch mode v n h => read_single_le bus hbus ch mode v n h,
   fun s e mode out n h => read_range_le bus hbus s e mode out n h,
   fun s cnt mode out n h => read_multiple_le bus hbus s cnt mode out n h⟩

/-- Witness for C10: a device answering 0xFF 0xFF yields the maximal
sample 4095, within range. -/
theorem C10_witness : (4095 : Nat) ≤ 4095 :=
  (C10_samples_are_12bit (constBus [255, 255])
    (fun tw l i bts hh => by cases hh; decide)).1 3 .SingleEnded 4095 1 rfl

end WHS
